import Mathlib

/-!
Shallow embedding of the conversation chunking and RAG-orchestration core of
the `claude-conversations` repository, together with proofs of the spec's
claims about it.

The embedding follows `src/core/chunking.py`, `src/core/agents.py` and the
data model of `src/claude_conversations/parser.py`.  Python `int` values that
are token counts, lengths or indices are modelled as `Nat`; Python lists as
`List`; `None`-able fields as `Option`; exceptions as `Except`/`Option`.
External collaborators (the SQLite search index, the session loader, the
Anthropic LLM client and Python's `json.loads`) are passed in as function
parameters, so their behaviour is universally quantified in the theorems.
-/

/-- One tool invocation attached to a message.  In the source a tool use is a
dict; the chunker only uses `str(tool.get("input", {}))` (its serialized
input) and `tool.get("name", "unknown")`, so those two strings are the model. -/
structure ToolUse where
  name : String
  inputStr : String
deriving DecidableEq, Repr

/-- One tool result attached to a message.  The chunker only uses
`str(result.get("content", ""))`, modelled as the string `contentStr`. -/
structure ToolResult where
  contentStr : String
deriving DecidableEq, Repr

/-- A single message in a conversation (`parser.Message`). -/
structure Message where
  role : String
  content : String
  timestamp : Option String := none
  uuid : Option String := none
  line_number : Nat := 0
  tool_use : List ToolUse := []
  tool_results : List ToolResult := []
  thinking : Option String := none
deriving DecidableEq, Repr

/-- A complete conversation session (`parser.Session`).  The `file_path` and
`file_mtime` fields of the source dataclass are irrelevant to chunking and
retrieval and are modelled as plain data. -/
structure Session where
  session_id : String
  project : String
  slug : Option String := none
  file_path : String := ""
  messages : List Message := []
  start_time : Option String := none
  end_time : Option String := none
deriving DecidableEq, Repr

/-- Maximum token budget per chunk (`chunking.MAX_TOKENS_PER_CHUNK`). -/
def MAX_TOKENS_PER_CHUNK : Nat := 50000

/-- A chunk of a session (`chunking.SessionChunk`). -/
structure SessionChunk where
  session_id : String
  session_project : String
  chunk_index : Nat
  total_chunks : Nat
  messages : List Message := []
  is_complete : Bool := true
deriving DecidableEq, Repr

/-- Rough token estimate, `chunking.estimate_tokens`: `len(text) // 4`. -/
def estimate_tokens (text : String) : Nat :=
  text.length / 4

/-- Token estimate of one message, `chunking.estimate_message_tokens`:
content estimate, plus per tool use the estimate of its serialized input plus
a fixed overhead of 50, plus per tool result the estimate of its content,
plus the estimate of any thinking text.  The `if msg.content:` and
`if msg.thinking:` truthiness tests of the source are mirrored as emptiness
tests. -/
def estimate_message_tokens (msg : Message) : Nat :=
  (if msg.content = "" then 0 else estimate_tokens msg.content)
    + (msg.tool_use.map (fun tool => estimate_tokens tool.inputStr + 50)).sum
    + (msg.tool_results.map (fun result => estimate_tokens result.contentStr)).sum
    + (match msg.thinking with
       | none => 0
       | some t => if t = "" then 0 else estimate_tokens t)

/-- Token estimate of a whole session, `chunking.estimate_session_tokens`. -/
def estimate_session_tokens (session : Session) : Nat :=
  (session.messages.map estimate_message_tokens).sum

/-- Sum of per-message token estimates of a message list (the running
`current_tokens` accumulator of `chunk_session` always equals this value on
the running `current_messages`). -/
def sum_message_tokens (msgs : List Message) : Nat :=
  (msgs.map estimate_message_tokens).sum

/-- The greedy accumulation loop of `chunking.chunk_session` (its
`for msg in session.messages` loop plus the final `if current_messages`
flush).  `current` is `current_messages`, `current_tokens` the running total;
the returned value is the `chunks` list of message lists, in order.  The
source's local `msg_tokens = estimate_message_tokens(msg)` is inlined. -/
def chunk_loop (max_tokens : Nat) :
    List Message → List Message → Nat → List (List Message)
  | [], current, _ =>
      if current = [] then [] else [current]
  | msg :: rest, current, current_tokens =>
      if estimate_message_tokens msg > max_tokens ∧ current = [] then
        chunk_loop max_tokens rest (current ++ [msg]) (estimate_message_tokens msg)
      else if current_tokens + estimate_message_tokens msg > max_tokens ∧ current ≠ [] then
        current :: chunk_loop max_tokens rest [msg] (estimate_message_tokens msg)
      else
        chunk_loop max_tokens rest (current ++ [msg])
          (current_tokens + estimate_message_tokens msg)

/-- Split a session into message-boundary-aligned chunks,
`chunking.chunk_session`. -/
def chunk_session (session : Session) (max_tokens : Nat) : List SessionChunk :=
  let total_tokens := estimate_session_tokens session
  if total_tokens ≤ max_tokens then
    [{ session_id := session.session_id
       session_project := session.project
       chunk_index := 0
       total_chunks := 1
       messages := session.messages
       is_complete := true }]
  else
    let chunks := chunk_loop max_tokens session.messages [] 0
    let total_chunks := chunks.length
    chunks.enum.map (fun p =>
      { session_id := session.session_id
        session_project := session.project
        chunk_index := p.1
        total_chunks := total_chunks
        messages := p.2
        is_complete := decide (total_chunks = 1) })

/-- Chunk several sessions independently, `chunking.chunk_multiple_sessions`. -/
def chunk_multiple_sessions (sessions : List Session) (max_tokens : Nat) :
    List SessionChunk :=
  (sessions.map (fun session => chunk_session session max_tokens)).flatten

/-! ### Basic lemmas about the chunking loop -/

theorem sum_message_tokens_append (l₁ l₂ : List Message) :
    sum_message_tokens (l₁ ++ l₂) = sum_message_tokens l₁ + sum_message_tokens l₂ := by
  simp [sum_message_tokens]

theorem estimate_le_sum_of_mem {m : Message} {l : List Message} (h : m ∈ l) :
    estimate_message_tokens m ≤ sum_message_tokens l :=
  List.single_le_sum (fun _ _ => Nat.zero_le _) _ (List.mem_map_of_mem estimate_message_tokens h)

/-- Concatenating the chunks produced by the greedy loop restores the pending
messages, prefixed by the running chunk. -/
theorem chunk_loop_flatten (max_tokens : Nat) (msgs : List Message) :
    ∀ (current : List Message) (current_tokens : Nat),
      (chunk_loop max_tokens msgs current current_tokens).flatten = current ++ msgs := by
  induction msgs with
  | nil =>
      intro current current_tokens
      by_cases h : current = [] <;> simp [chunk_loop, h]
  | cons msg rest ih =>
      intro current current_tokens
      rw [chunk_loop]
      split_ifs with h₁ h₂
      · rw [ih]; simp
      · rw [List.flatten_cons, ih]; simp
      · rw [ih]; simp

/-- Every chunk the greedy loop emits is within budget or is a singleton, as
long as the running chunk satisfies the same invariant and `current_tokens`
is the running chunk's token total. -/
theorem chunk_loop_bounded (max_tokens : Nat) (msgs : List Message) :
    ∀ (current : List Message) (current_tokens : Nat),
      current_tokens = sum_message_tokens current →
      (sum_message_tokens current ≤ max_tokens ∨ ∃ m, current = [m]) →
      ∀ c ∈ chunk_loop max_tokens msgs current current_tokens,
        sum_message_tokens c ≤ max_tokens ∨ ∃ m, c = [m] := by
  induction msgs with
  | nil =>
      intro current current_tokens _ hinv c hc
      by_cases h : current = []
      · simp [chunk_loop, h] at hc
      · simp only [chunk_loop, if_neg h, List.mem_singleton] at hc
        exact hc ▸ hinv
  | cons msg rest ih =>
      intro current current_tokens htok hinv c hc
      rw [chunk_loop] at hc
      split_ifs at hc with h₁ h₂
      · refine ih _ _ ?_ ?_ c hc
        · rw [h₁.2]; simp [sum_message_tokens]
        · exact Or.inr ⟨msg, by rw [h₁.2]; rfl⟩
      · rcases List.mem_cons.1 hc with rfl | hc'
        · exact hinv
        · refine ih _ _ ?_ ?_ c hc'
          · simp [sum_message_tokens]
          · exact Or.inr ⟨msg, rfl⟩
      · refine ih _ _ ?_ ?_ c hc
        · rw [htok, sum_message_tokens_append]; simp [sum_message_tokens]
        · left
          rw [sum_message_tokens_append]
          by_cases hcur : current = []
          · have hle : estimate_message_tokens msg ≤ max_tokens := by
              rcases Nat.lt_or_ge max_tokens (estimate_message_tokens msg) with hgt | hge
              · exact absurd ⟨hgt, hcur⟩ h₁
              · exact hge
            simpa [hcur, sum_message_tokens] using hle
          · have hle : current_tokens + estimate_message_tokens msg ≤ max_tokens := by
              rcases Nat.lt_or_ge max_tokens (current_tokens + estimate_message_tokens msg)
                with hgt | hge
              · exact absurd ⟨hgt, hcur⟩ h₂
              · exact hge
            calc sum_message_tokens current + sum_message_tokens [msg]
                = current_tokens + estimate_message_tokens msg := by
                  rw [htok]; simp [sum_message_tokens]
              _ ≤ max_tokens := hle

/-- Chunks of `chunk_session` in the splitting branch carry exactly the loop's
message lists. -/
theorem map_messages_of_enum (sid proj : String) (tc : Nat) (l : List (List Message)) :
    ((l.enum.map (fun p =>
        ({ session_id := sid, session_project := proj, chunk_index := p.1,
           total_chunks := tc, messages := p.2,
           is_complete := decide (tc = 1) } : SessionChunk))).map SessionChunk.messages) = l := by
  rw [List.map_map]
  exact List.enum_map_snd l

/-- Chunk indices of `chunk_session` in the splitting branch are the positions
in the loop's output list. -/
theorem map_chunk_index_of_enum (sid proj : String) (tc : Nat) (l : List (List Message)) :
    ((l.enum.map (fun p =>
        ({ session_id := sid, session_project := proj, chunk_index := p.1,
           total_chunks := tc, messages := p.2,
           is_complete := decide (tc = 1) } : SessionChunk))).map SessionChunk.chunk_index)
      = List.range l.length := by
  rw [List.map_map]
  exact List.enum_map_fst l

/-- Membership in the splitting branch of `chunk_session` gives a chunk whose
message list is one of the loop's output lists. -/
theorem messages_mem_of_mem_enum_map {sid proj : String} {tc : Nat}
    {l : List (List Message)} {c : SessionChunk}
    (hc : c ∈ l.enum.map (fun p =>
        ({ session_id := sid, session_project := proj, chunk_index := p.1,
           total_chunks := tc, messages := p.2,
           is_complete := decide (tc = 1) } : SessionChunk))) :
    c.messages ∈ l := by
  obtain ⟨p, hp, rfl⟩ := List.mem_map.1 hc
  have hsnd := List.mem_map_of_mem Prod.snd hp
  rwa [List.enum_map_snd] at hsnd

/-- Every chunk of `chunk_session` is within the token budget or consists of a
single message. -/
theorem chunk_session_bounded_or_singleton (S : Session) (B : Nat) :
    ∀ c ∈ chunk_session S B, sum_message_tokens c.messages ≤ B ∨ ∃ m, c.messages = [m] := by
  intro c hc
  unfold chunk_session at hc
  by_cases h : estimate_session_tokens S ≤ B
  · rw [if_pos h] at hc
    simp only [List.mem_singleton] at hc
    subst hc
    exact Or.inl h
  · rw [if_neg h] at hc
    simp only at hc
    have hmem := messages_mem_of_mem_enum_map hc
    exact chunk_loop_bounded B S.messages [] 0 (by simp [sum_message_tokens])
      (Or.inl (by simp [sum_message_tokens])) c.messages hmem

/-- Round-trip helper: concatenating the chunks' message lists restores the
session's messages. -/
theorem chunk_session_messages_flatten (S : Session) (B : Nat) :
    ((chunk_session S B).map SessionChunk.messages).flatten = S.messages := by
  unfold chunk_session
  by_cases h : estimate_session_tokens S ≤ B
  · rw [if_pos h]; simp
  · rw [if_neg h]
    simp only
    rw [map_messages_of_enum, chunk_loop_flatten]
    rfl

/-- Single-chunk helper: a session within budget is returned as one complete
chunk. -/
theorem chunk_session_of_fits (S : Session) (B : Nat)
    (h : estimate_session_tokens S ≤ B) :
    chunk_session S B =
      [{ session_id := S.session_id, session_project := S.project,
         chunk_index := 0, total_chunks := 1,
         messages := S.messages, is_complete := true }] := by
  unfold chunk_session
  rw [if_pos h]

/-! ### Claim theorems about the chunker -/

/-- C1.  For every session `S` and token budget `B`, concatenating the message
lists of the chunks returned by `chunk_session S B`, in list (= `chunk_index`)
order, yields exactly `S`'s message list: same messages, same order, same
count, nothing duplicated, dropped or split. -/
theorem chunk_session_lossless (S : Session) (B : Nat) :
    ((chunk_session S B).map SessionChunk.messages).flatten = S.messages :=
  chunk_session_messages_flatten S B

/-- C2.  Every message of `S` whose individual token estimate exceeds `B` is
placed alone in its own chunk by `chunk_session S B`: some chunk's message
list is exactly `[m]` (so the message is neither dropped nor split), and any
chunk containing such a message contains nothing else. -/
theorem chunk_session_oversized (S : Session) (B : Nat) (m : Message)
    (hm : m ∈ S.messages) (hover : B < estimate_message_tokens m) :
    (∃ c ∈ chunk_session S B, c.messages = [m]) ∧
      ∀ c ∈ chunk_session S B, m ∈ c.messages → c.messages = [m] := by
  have hsingle : ∀ c ∈ chunk_session S B, m ∈ c.messages → c.messages = [m] := by
    intro c hc hmc
    rcases chunk_session_bounded_or_singleton S B c hc with hb | ⟨m', hm'⟩
    · exact absurd (Nat.lt_of_lt_of_le hover (Nat.le_trans (estimate_le_sum_of_mem hmc) hb))
        (Nat.lt_irrefl B)
    · rw [hm'] at hmc ⊢
      rw [List.mem_singleton.1 hmc]
  refine ⟨?_, hsingle⟩
  have hm' : m ∈ ((chunk_session S B).map SessionChunk.messages).flatten := by
    rw [chunk_session_messages_flatten]; exact hm
  obtain ⟨l, hl, hml⟩ := List.mem_flatten.1 hm'
  obtain ⟨c, hc, rfl⟩ := List.mem_map.1 hl
  exact ⟨c, hc, hsingle c hc hml⟩

/-- C5.  If the whole session fits in the budget, `chunk_session` returns a
single chunk holding all messages, marked complete. -/
theorem chunk_session_single (S : Session) (B : Nat)
    (h : estimate_session_tokens S ≤ B) :
    chunk_session S B =
      [{ session_id := S.session_id, session_project := S.project,
         chunk_index := 0, total_chunks := 1,
         messages := S.messages, is_complete := true }] :=
  chunk_session_of_fits S B h

/-- C6.  The chunks of `chunk_session S B` carry `chunk_index` values exactly
`0..n-1` in list order, every chunk's `total_chunks` equals `n`, and a chunk
is marked complete exactly when `n = 1`, where `n` is the number of chunks. -/
theorem chunk_session_indexing (S : Session) (B : Nat) :
    (chunk_session S B).map SessionChunk.chunk_index
        = List.range (chunk_session S B).length ∧
      ∀ c ∈ chunk_session S B,
        c.total_chunks = (chunk_session S B).length ∧
          (c.is_complete = true ↔ (chunk_session S B).length = 1) := by
  by_cases h : estimate_session_tokens S ≤ B
  · rw [chunk_session_of_fits S B h]
    refine ⟨by simp [List.range_succ], ?_⟩
    intro c hc
    simp only [List.mem_singleton] at hc
    subst hc
    simp
  · unfold chunk_session
    rw [if_neg h]
    simp only
    constructor
    · rw [map_chunk_index_of_enum, List.length_map, List.enum_length]
    · intro c hc
      have hlen : (((chunk_loop B S.messages [] 0).enum.map (fun p =>
          ({ session_id := S.session_id, session_project := S.project,
             chunk_index := p.1, total_chunks := (chunk_loop B S.messages [] 0).length,
             messages := p.2,
             is_complete := decide ((chunk_loop B S.messages [] 0).length = 1) }
            : SessionChunk))).length) = (chunk_loop B S.messages [] 0).length := by
        rw [List.length_map, List.enum_length]
      obtain ⟨p, _, rfl⟩ := List.mem_map.1 hc
      rw [hlen]
      exact ⟨rfl, by simp⟩

/-- C8.  `estimate_tokens` is `length / 4`: in particular non-negative (it is
a `Nat`), monotone in the string length, zero on the empty string, and a
message with no content, no tool uses, no tool results and no thinking is
estimated at zero tokens. -/
theorem estimate_tokens_spec :
    (∀ text : String, estimate_tokens text = text.length / 4) ∧
      (∀ s t : String, s.length ≤ t.length → estimate_tokens s ≤ estimate_tokens t) ∧
      estimate_tokens "" = 0 ∧
      (∀ (role : String) (ts uu : Option String) (ln : Nat),
        estimate_message_tokens
          { role := role, content := "", timestamp := ts, uuid := uu,
            line_number := ln, tool_use := [], tool_results := [], thinking := none } = 0) := by
  refine ⟨fun _ => rfl, ?_, rfl, fun role ts uu ln => rfl⟩
  intro s t hst
  exact Nat.div_le_div_right hst

/-- C9.  Every chunk of `chunk_session S B` holding at least two messages has
a total estimated token count of at most `B`; only single-message chunks may
exceed the budget. -/
theorem chunk_session_budget (S : Session) (B : Nat) :
    ∀ c ∈ chunk_session S B, 2 ≤ c.messages.length → sum_message_tokens c.messages ≤ B := by
  intro c hc hlen
  rcases chunk_session_bounded_or_singleton S B c hc with hb | ⟨m, hm⟩
  · exact hb
  · rw [hm] at hlen
    exact absurd hlen (by simp)

/-! ### Concrete sample data and witnesses for the chunker claims -/

/-- Sample message: 8 characters of content, so 2 estimated tokens. -/
def msgA : Message := { role := "user", content := "aaaaaaaa" }

/-- Sample message: 12 characters of content, so 3 estimated tokens. -/
def msgB : Message := { role := "assistant", content := "bbbbbbbbbbbb" }

/-- Sample session holding only `msgA`. -/
def sessionA : Session := { session_id := "sess-a", project := "proj", messages := [msgA] }

/-- Sample session holding `msgA` and `msgB` (5 estimated tokens in total). -/
def sessionB : Session :=
  { session_id := "sess-b", project := "proj", messages := [msgA, msgB] }

/-- Witness for C2: in `sessionA` with budget 1, the 2-token message `msgA`
is placed alone in a chunk. -/
theorem chunk_session_oversized_witness :
    (∃ c ∈ chunk_session sessionA 1, c.messages = [msgA]) ∧
      ∀ c ∈ chunk_session sessionA 1, msgA ∈ c.messages → c.messages = [msgA] :=
  chunk_session_oversized sessionA 1 msgA (by decide) (by decide)

/-- Witness for C5: `sessionB` (5 tokens) with budget 100 is one complete
chunk. -/
theorem chunk_session_single_witness :
    chunk_session sessionB 100 =
      [{ session_id := sessionB.session_id, session_project := sessionB.project,
         chunk_index := 0, total_chunks := 1,
         messages := sessionB.messages, is_complete := true }] :=
  chunk_session_single sessionB 100 (by decide)

/-- Witness for C6, instantiated at `sessionB` with budget 2 (which forces a
split into two chunks) and evaluated at the first chunk. -/
theorem chunk_session_indexing_witness :
    (chunk_session sessionB 2).map SessionChunk.chunk_index
        = List.range (chunk_session sessionB 2).length ∧
      ({ session_id := "sess-b", session_project := "proj", chunk_index := 0,
         total_chunks := 2, messages := [msgA],
         is_complete := false } : SessionChunk).total_chunks
          = (chunk_session sessionB 2).length ∧
        (({ session_id := "sess-b", session_project := "proj", chunk_index := 0,
            total_chunks := 2, messages := [msgA],
            is_complete := false } : SessionChunk).is_complete = true ↔
          (chunk_session sessionB 2).length = 1) :=
  ⟨(chunk_session_indexing sessionB 2).1,
    (chunk_session_indexing sessionB 2).2 _ (by decide)⟩

/-- Witness for C8: monotonicity evaluated on concrete strings. -/
theorem estimate_tokens_spec_witness :
    estimate_tokens "abcd" ≤ estimate_tokens "abcdefgh" :=
  estimate_tokens_spec.2.1 "abcd" "abcdefgh" (by decide)

/-- Witness for C9: with budget 100, `sessionB` yields one chunk with two
messages whose total of 5 tokens is within the budget. -/
theorem chunk_session_budget_witness :
    sum_message_tokens
      ({ session_id := "sess-b", session_project := "proj", chunk_index := 0,
         total_chunks := 1, messages := [msgA, msgB],
         is_complete := true } : SessionChunk).messages ≤ 100 :=
  chunk_session_budget sessionB 100 _ (by decide) (by decide)


/-! ### Query decomposition (`agents.QueryDecomposer.decompose`)

The LLM response is modelled as the list of its content blocks, a block being
a text block or some other block kind (`hasattr(b, 'text')` probing in the
source).  Python's `json.loads` is an external library call; it is passed in
as a parameter `json_loads` returning `none` where the library would raise
`json.JSONDecodeError`.  Decoded JSON documents (which are also the runtime
values stored in the resulting dataclass) are modelled by `Json`. -/

/-- A decoded JSON value; also the universe of runtime values that
`decompose` stores into the resulting dataclass fields (a Python list of
strings is `Json.arr` of `Json.str`, a Python bool is `Json.bool`). -/
inductive Json where
  | null
  | bool (b : Bool)
  | num (n : Int)
  | str (s : String)
  | arr (elems : List Json)
  | obj (fields : List (String × Json))

/-- Lookup in a decoded JSON object.  `json.loads` builds a Python dict, so a
duplicated key keeps its last occurrence. -/
def Json.lookup (fields : List (String × Json)) (key : String) : Option Json :=
  match fields with
  | [] => none
  | (k, v) :: rest =>
      match Json.lookup rest key with
      | some v' => some v'
      | none => if k = key then some v else none

/-- One content block of an LLM response: a text block (`hasattr(b, 'text')`)
or anything else. -/
inductive ContentBlock where
  | text (s : String)
  | other
deriving DecidableEq, Repr

/-- The source's `[b for b in response.content if hasattr(b, 'text')]`,
keeping each text block's text. -/
def text_blocks (content : List ContentBlock) : List String :=
  content.filterMap (fun b =>
    match b with
    | .text s => some s
    | .other => none)

/-- Python's `str.find`: index of the first occurrence, `-1` if absent. -/
def str_find (s : String) (c : Char) : Int :=
  match s.toList.findIdx? (· = c) with
  | some i => (i : Int)
  | none => -1

/-- Python's `str.rfind`: index of the last occurrence, `-1` if absent. -/
def str_rfind (s : String) (c : Char) : Int :=
  match s.toList.reverse.findIdx? (· = c) with
  | some i => ((s.toList.length - 1 - i : Nat) : Int)
  | none => -1

/-- Python's `s[i:j]` character slice for `0 ≤ i ≤ j`. -/
def py_slice (s : String) (i j : Nat) : String :=
  ((s.toList.drop i).take (j - i)).asString

/-- The `agents.DecomposedQuery` dataclass as populated at runtime.  The
dataclass performs no validation, and the parsing path stores whatever values
`json.loads` decoded, so the three derived fields hold raw `Json` values. -/
structure DecomposedQueryDyn where
  original_query : String
  search_queries : Json
  analysis_prompt : Json
  comparison_needed : Json

/-- The source's `bool(projects and len(projects) > 1)`: true exactly when a
project list was supplied and holds more than one entry. -/
def projects_comparison (projects : Option (List String)) : Bool :=
  match projects with
  | none => false
  | some ps => decide (1 < ps.length)

/-- The degenerate `DecomposedQuery` the source falls back to when no JSON
can be extracted or parsed from the model's response. -/
def fallback_decomposition (query : String) (projects : Option (List String)) :
    DecomposedQueryDyn :=
  { original_query := query
    search_queries := Json.arr [Json.str query]
    analysis_prompt := Json.str query
    comparison_needed := Json.bool (projects_comparison projects) }

/-- The pure core of `agents.QueryDecomposer.decompose`, given the LLM
response's content blocks: take the first text block, locate the span from
the first `{` to the last `}`, parse it with `json_loads`, and build the
result with per-key defaults; fall back to `fallback_decomposition` when
there is no text block, no such span, or the parse fails.  A successful parse
of a non-object value would hit the uncaught `AttributeError` of
`parsed.get`, modelled by the `.error` branch (unreachable for a real JSON
library, which only decodes an object from a string starting with `{`). -/
def decompose (query : String) (projects : Option (List String))
    (json_loads : String → Option Json) (response_content : List ContentBlock) :
    Except String DecomposedQueryDyn :=
  match text_blocks response_content with
  | [] => .ok (fallback_decomposition query projects)
  | response_text :: _ =>
      let json_start := str_find response_text '{'
      let json_end := str_rfind response_text '}' + 1
      if json_start ≥ 0 ∧ json_end > json_start then
        match json_loads (py_slice response_text json_start.toNat json_end.toNat) with
        | some (Json.obj parsed) =>
            .ok { original_query := query
                  search_queries :=
                    (Json.lookup parsed "search_queries").getD (Json.arr [Json.str query])
                  analysis_prompt :=
                    (Json.lookup parsed "analysis_prompt").getD (Json.str query)
                  comparison_needed :=
                    (Json.lookup parsed "comparison_needed").getD (Json.bool false) }
        | some _ => .error "AttributeError"
        | none => .ok (fallback_decomposition query projects)
      else
        .ok (fallback_decomposition query projects)

/-- C4.  If the LLM response has no extractable `{`..`}` span (in its first
text block, or no text block at all) or the extracted span fails to parse,
`decompose` returns the degenerate `DecomposedQuery`: the single search query
and the analysis prompt are the original query verbatim, and the
comparison-needed flag is true exactly when a project list with more than one
entry was supplied.  No exception reaches the caller (the result is `.ok`). -/
theorem decompose_fallback (query : String) (projects : Option (List String))
    (json_loads : String → Option Json) (response_content : List ContentBlock)
    (h : match text_blocks response_content with
         | [] => True
         | response_text :: _ =>
             ¬ (str_find response_text '{' ≥ 0 ∧
                 str_rfind response_text '}' + 1 > str_find response_text '{') ∨
               json_loads (py_slice response_text (str_find response_text '{').toNat
                 (str_rfind response_text '}' + 1).toNat) = none) :
    decompose query projects json_loads response_content
        = .ok (fallback_decomposition query projects) ∧
      (fallback_decomposition query projects).search_queries = Json.arr [Json.str query] ∧
      (fallback_decomposition query projects).analysis_prompt = Json.str query ∧
      ((fallback_decomposition query projects).comparison_needed = Json.bool true ↔
        ∃ ps, projects = some ps ∧ 1 < ps.length) := by
  refine ⟨?_, rfl, rfl, ?_⟩
  · unfold decompose
    cases htb : text_blocks response_content with
    | nil => rfl
    | cons response_text rest =>
        rw [htb] at h
        simp only
        rcases h with hno | hfail
        · rw [if_neg hno]
        · by_cases hcond : str_find response_text '{' ≥ 0 ∧
              str_rfind response_text '}' + 1 > str_find response_text '{'
          · rw [if_pos hcond, hfail]
          · rw [if_neg hcond]
  · show Json.bool (projects_comparison projects) = Json.bool true ↔ _
    constructor
    · intro hb
      have hb' : projects_comparison projects = true := by
        injection hb
      cases projects with
      | none => exact absurd hb' (by simp [projects_comparison])
      | some ps =>
          exact ⟨ps, rfl, by simpa [projects_comparison] using hb'⟩
    · rintro ⟨ps, rfl, hps⟩
      simp [projects_comparison, hps]

/-- C10.  If the span between the first `{` and the last `}` of the response
parses as a JSON object, `decompose` fills each field independently with a
per-key default — `search_queries` defaults to `[query]`, `analysis_prompt`
to `query`, and `comparison_needed` to `False` regardless of the supplied
projects — instead of applying the full fallback rule. -/
theorem decompose_defaults (query : String) (projects : Option (List String))
    (json_loads : String → Option Json) (response_content : List ContentBlock)
    (response_text : String) (rest : List String) (parsed : List (String × Json))
    (htb : text_blocks response_content = response_text :: rest)
    (hcond : str_find response_text '{' ≥ 0 ∧
      str_rfind response_text '}' + 1 > str_find response_text '{')
    (hparse : json_loads (py_slice response_text (str_find response_text '{').toNat
        (str_rfind response_text '}' + 1).toNat) = some (Json.obj parsed)) :
    decompose query projects json_loads response_content =
        .ok { original_query := query
              search_queries :=
                (Json.lookup parsed "search_queries").getD (Json.arr [Json.str query])
              analysis_prompt :=
                (Json.lookup parsed "analysis_prompt").getD (Json.str query)
              comparison_needed :=
                (Json.lookup parsed "comparison_needed").getD (Json.bool false) } ∧
      (Json.lookup parsed "search_queries" = none →
        (Json.lookup parsed "search_queries").getD (Json.arr [Json.str query])
          = Json.arr [Json.str query]) ∧
      (Json.lookup parsed "analysis_prompt" = none →
        (Json.lookup parsed "analysis_prompt").getD (Json.str query) = Json.str query) ∧
      (Json.lookup parsed "comparison_needed" = none →
        (Json.lookup parsed "comparison_needed").getD (Json.bool false) = Json.bool false) := by
  refine ⟨?_, fun hm => by rw [hm]; rfl, fun hm => by rw [hm]; rfl, fun hm => by rw [hm]; rfl⟩
  unfold decompose
  rw [htb]
  simp only
  rw [if_pos hcond, hparse]

/-- Stand-in for `json.loads` that fails on every input. -/
def loads_none : String → Option Json := fun _ => none

/-- Stand-in for `json.loads` that decodes every input as the empty object. -/
def loads_empty_obj : String → Option Json := fun _ => some (Json.obj [])

/-- Witness for C4: a response whose text parses as nothing falls back to the
degenerate decomposition, with the comparison flag driven by the two supplied
projects. -/
theorem decompose_fallback_witness :
    decompose "q" (some ["p1", "p2"]) loads_none [ContentBlock.text "not json"]
        = .ok (fallback_decomposition "q" (some ["p1", "p2"])) ∧
      (fallback_decomposition "q" (some ["p1", "p2"])).search_queries
        = Json.arr [Json.str "q"] ∧
      (fallback_decomposition "q" (some ["p1", "p2"])).analysis_prompt = Json.str "q" ∧
      ((fallback_decomposition "q" (some ["p1", "p2"])).comparison_needed = Json.bool true ↔
        ∃ ps, (some ["p1", "p2"] : Option (List String)) = some ps ∧ 1 < ps.length) :=
  decompose_fallback "q" (some ["p1", "p2"]) loads_none [ContentBlock.text "not json"]
    (Or.inl (by decide))

/-- Witness for C10: a response decoding to the empty JSON object yields all
three per-key defaults, with the comparison flag `False` even though two
projects were supplied. -/
theorem decompose_defaults_witness :
    decompose "q" (some ["p1", "p2"]) loads_empty_obj [ContentBlock.text "{}"] =
        .ok { original_query := "q"
              search_queries :=
                (Json.lookup [] "search_queries").getD (Json.arr [Json.str "q"])
              analysis_prompt := (Json.lookup [] "analysis_prompt").getD (Json.str "q")
              comparison_needed :=
                (Json.lookup [] "comparison_needed").getD (Json.bool false) } ∧
      (Json.lookup [] "search_queries" = none →
        (Json.lookup [] "search_queries").getD (Json.arr [Json.str "q"])
          = Json.arr [Json.str "q"]) ∧
      (Json.lookup [] "analysis_prompt" = none →
        (Json.lookup [] "analysis_prompt").getD (Json.str "q") = Json.str "q") ∧
      (Json.lookup [] "comparison_needed" = none →
        (Json.lookup [] "comparison_needed").getD (Json.bool false) = Json.bool false) :=
  decompose_defaults "q" (some ["p1", "p2"]) loads_empty_obj [ContentBlock.text "{}"]
    "{}" [] [] rfl (by decide) rfl

/-! ### Session retrieval (`agents.RAGAnalyzer._search_sessions`)

The search index and the session loader are external collaborators:
`search.search` raising `RuntimeError` is modelled as a function into
`Except String _` (the error message is the exception's text), and
`search.load_session` raising `ValueError` as a function into
`Option Session`.  The orchestrator's `self.context.search_results`, the
local `all_sessions` insertion-ordered dict and the `self.log` list (whose
entries `_log` also reports to the progress callback) are threaded as a
state record. -/

/-- One search hit (`search.SearchResult`). -/
structure SearchResult where
  session_id : String
  project : String
  timestamp : Option String := none
  role : String := ""
  content : String := ""
  line_number : Nat := 0
  snippet : String := ""
deriving DecidableEq, Repr

/-- One `{"stage": ..., "detail": ...}` entry of `self.log`; `_log` appends it
and reports the same pair to the progress callback. -/
structure LogEntry where
  stage : String
  detail : String
deriving DecidableEq, Repr

/-- The mutable state `_search_sessions` reads and writes: the local
`all_sessions` dict (insertion-ordered, keyed by session id), the
accumulated `self.context.search_results`, and `self.log`. -/
structure RetrievalState where
  all_sessions : List (String × Session) := []
  search_results : List SearchResult := []
  log : List LogEntry := []
deriving DecidableEq, Repr

/-- The external search collaborator: `search.search(query, project=, limit=)`,
`.error` being a raised `RuntimeError` with the given message. -/
def SearchFn : Type := String → Option String → Nat → Except String (List SearchResult)

/-- The external session-load collaborator: `search.load_session(session_id)`,
`none` being a raised `ValueError`. -/
def LoadFn : Type := String → Option Session

/-- Append one log entry (the body of `RAGAnalyzer._log`, which never
receives a `data` payload from the orchestrator). -/
def log_entry (st : RetrievalState) (stage detail : String) : RetrievalState :=
  { st with log := st.log ++ [{ stage := stage, detail := detail }] }

/-- Python's `s[:8]` character prefix. -/
def py_take8 (s : String) : String :=
  (s.toList.take 8).asString

/-- Membership test of the `all_sessions` dict. -/
def contains_key (d : List (String × Session)) (k : String) : Bool :=
  d.any (fun p => p.1 == k)

/-- Processing of one search result in the project-scoped loop: load the
session unless its id is already present; a `ValueError` from the loader is
silently swallowed (`except ValueError: pass`). -/
def load_step_scoped (load_session : LoadFn) (st : RetrievalState)
    (result : SearchResult) : RetrievalState :=
  if contains_key st.all_sessions result.session_id then st
  else
    match load_session result.session_id with
    | some session =>
        log_entry { st with all_sessions := st.all_sessions ++ [(result.session_id, session)] }
          "searching"
          ("    Found: " ++ py_take8 session.session_id ++ " ("
            ++ toString session.messages.length ++ " msgs)")
    | none => st

/-- Processing of one search result in the unscoped loop; same structure,
different log text. -/
def load_step_unscoped (load_session : LoadFn) (st : RetrievalState)
    (result : SearchResult) : RetrievalState :=
  if contains_key st.all_sessions result.session_id then st
  else
    match load_session result.session_id with
    | some session =>
        log_entry { st with all_sessions := st.all_sessions ++ [(result.session_id, session)] }
          "searching"
          ("  Found: " ++ py_take8 session.session_id ++ " in " ++ session.project)
    | none => st

/-- One `(query, project)` iteration of the project-scoped branch: log the
project, search it (limit 20, glob `*project*`), accumulate the raw results,
and load each unseen session; a `RuntimeError` from the search call is caught
and logged. -/
def search_project_step (search : SearchFn) (load_session : LoadFn)
    (query project : String) (st : RetrievalState) : RetrievalState :=
  let st := log_entry st "searching" ("  In project: " ++ project)
  match search query (some ("*" ++ project ++ "*")) 20 with
  | .ok results =>
      let st := { st with search_results := st.search_results ++ results }
      results.foldl (load_step_scoped load_session) st
  | .error e => log_entry st "searching" ("    Search error: " ++ e)

/-- One query iteration of `_search_sessions`: log the query, then either
search each project separately or search unscoped (limit 30, loading at most
the first 10 results); a `RuntimeError` from the unscoped search is caught
and logged.  `if projects:` is Python truthiness, so an empty project list
takes the unscoped branch. -/
def search_query_step (search : SearchFn) (load_session : LoadFn)
    (projects : Option (List String)) (query : String) (st : RetrievalState) :
    RetrievalState :=
  let st := log_entry st "searching" ("Searching for: '" ++ query ++ "'")
  let ps := projects.getD []
  if ps.isEmpty then
    match search query none 30 with
    | .ok results =>
        let st := { st with search_results := st.search_results ++ results }
        (results.take 10).foldl (load_step_unscoped load_session) st
    | .error e => log_entry st "searching" ("Search error: " ++ e)
  else
    ps.foldl (fun st project => search_project_step search load_session query project st) st

/-- The body of `RAGAnalyzer._search_sessions(queries, projects)`: the local
`all_sessions` dict starts empty, each query is processed in turn, and the
deduplicated sessions are returned in insertion order after a final summary
log line. -/
def search_sessions (search : SearchFn) (load_session : LoadFn)
    (queries : List String) (projects : Option (List String))
    (st0 : RetrievalState) : List Session × RetrievalState :=
  let st := { st0 with all_sessions := [] }
  let st := queries.foldl
    (fun st query => search_query_step search load_session projects query st) st
  let sessions := st.all_sessions.map Prod.snd
  let st := log_entry st "searching"
    ("Total unique sessions found: " ++ toString sessions.length)
  (sessions, st)

/-- Search stub returning one hit for session `deadbeef-0000` on every call. -/
def search_one_hit : SearchFn := fun _ _ _ =>
  .ok [{ session_id := "deadbeef-0000", project := "proj" }]

/-- Search stub returning no hits. -/
def search_no_hit : SearchFn := fun _ _ _ => .ok []

/-- Search stub whose every call raises `RuntimeError("index missing")`. -/
def search_fails : SearchFn := fun _ _ _ => .error "index missing"

/-- Loader stub whose every call raises `ValueError`. -/
def load_fails : LoadFn := fun _ => none

/-- Counterexample to C3.  In a run whose single unscoped search returns a hit
for session `deadbeef-0000` and whose load of that session fails
(`ValueError`), the load failure is caught and the session skipped, but the
final log holds only the query banner and the zero-session summary — it is
even identical to the log of a run whose search returned no hits at all, so
no log event with stage "searching" (or any other stage) carries the load
failure's detail. -/
theorem search_sessions_load_failure_unlogged :
    search_one_hit "q" none 30
        = .ok [{ session_id := "deadbeef-0000", project := "proj" }] ∧
      load_fails "deadbeef-0000" = none ∧
      (search_sessions search_one_hit load_fails ["q"] none {}).1 = [] ∧
      (search_sessions search_one_hit load_fails ["q"] none {}).2.log =
        [{ stage := "searching", detail := "Searching for: 'q'" },
         { stage := "searching", detail := "Total unique sessions found: 0" }] ∧
      (search_sessions search_one_hit load_fails ["q"] none {}).2.log =
        (search_sessions search_no_hit load_fails ["q"] none {}).2.log := by
  refine ⟨rfl, rfl, ?_, ?_, ?_⟩ <;> decide

/-- C3 amended.  Every failed external search call is caught and logged as a
stage-"searching" event carrying the failure detail, leaving the session set
untouched; every failed session load is caught and the session silently
skipped with no log event; and in both cases the run goes on with the
remaining queries. -/
theorem search_sessions_failure_handling (search : SearchFn) (load_session : LoadFn) :
    (∀ (st : RetrievalState) (query project e : String),
      search query (some ("*" ++ project ++ "*")) 20 = .error e →
      search_project_step search load_session query project st =
        log_entry (log_entry st "searching" ("  In project: " ++ project))
          "searching" ("    Search error: " ++ e)) ∧
    (∀ (st : RetrievalState) (query e : String),
      search query none 30 = .error e →
      search_query_step search load_session none query st =
        log_entry (log_entry st "searching" ("Searching for: '" ++ query ++ "'"))
          "searching" ("Search error: " ++ e)) ∧
    (∀ (st : RetrievalState) (result : SearchResult),
      contains_key st.all_sessions result.session_id = false →
      load_session result.session_id = none →
      load_step_scoped load_session st result = st ∧
      load_step_unscoped load_session st result = st) ∧
    (∀ (st : RetrievalState) (query : String) (queries : List String)
        (projects : Option (List String)),
      List.foldl (fun st q => search_query_step search load_session projects q st)
          st (query :: queries) =
        List.foldl (fun st q => search_query_step search load_session projects q st)
          (search_query_step search load_session projects query st) queries) := by
  refine ⟨?_, ?_, ?_, fun _ _ _ _ => rfl⟩
  · intro st query project e he
    simp [search_project_step, he]
  · intro st query e he
    simp [search_query_step, he]
  · intro st result hmem hload
    constructor <;> simp [load_step_scoped, load_step_unscoped, hmem, hload]

/-- Witness for the amended C3, at a failing search and a failing load. -/
theorem search_sessions_failure_handling_witness :
    (search_query_step search_fails load_fails none "q" {} =
        log_entry (log_entry {} "searching" "Searching for: 'q'")
          "searching" "Search error: index missing") ∧
      (load_step_scoped load_fails { all_sessions := [] }
          { session_id := "deadbeef-0000", project := "proj" } =
        { all_sessions := [] } ∧
        load_step_unscoped load_fails { all_sessions := [] }
          { session_id := "deadbeef-0000", project := "proj" } =
        { all_sessions := [] }) :=
  ⟨(search_sessions_failure_handling search_fails load_fails).2.1 {} "q" "index missing" rfl,
    (search_sessions_failure_handling search_fails load_fails).2.2.1
      { all_sessions := [] } { session_id := "deadbeef-0000", project := "proj" }
      rfl rfl⟩

/-! ### Supporting lemmas: the retrieved session set does not depend on the
ambient log, and retrieval only appends stage-"searching" log entries. -/

theorem load_step_scoped_all_sessions (load_session : LoadFn) (st : RetrievalState)
    (result : SearchResult) :
    (load_step_scoped load_session st result).all_sessions =
      (if contains_key st.all_sessions result.session_id then st.all_sessions
       else
        match load_session result.session_id with
        | some session => st.all_sessions ++ [(result.session_id, session)]
        | none => st.all_sessions) := by
  cases h : contains_key st.all_sessions result.session_id <;>
    cases hl : load_session result.session_id <;>
      simp [load_step_scoped, log_entry, h, hl]

theorem load_step_unscoped_all_sessions (load_session : LoadFn) (st : RetrievalState)
    (result : SearchResult) :
    (load_step_unscoped load_session st result).all_sessions =
      (if contains_key st.all_sessions result.session_id then st.all_sessions
       else
        match load_session result.session_id with
        | some session => st.all_sessions ++ [(result.session_id, session)]
        | none => st.all_sessions) := by
  cases h : contains_key st.all_sessions result.session_id <;>
    cases hl : load_session result.session_id <;>
      simp [load_step_unscoped, log_entry, h, hl]

theorem foldl_all_sessions_congr {α : Type} (f : RetrievalState → α → RetrievalState)
    (hf : ∀ (st₀ st₁ : RetrievalState) (a : α), st₀.all_sessions = st₁.all_sessions →
      (f st₀ a).all_sessions = (f st₁ a).all_sessions) :
    ∀ (l : List α) (st₀ st₁ : RetrievalState), st₀.all_sessions = st₁.all_sessions →
      (l.foldl f st₀).all_sessions = (l.foldl f st₁).all_sessions := by
  intro l
  induction l with
  | nil => intro st₀ st₁ h; exact h
  | cons a rest ih => intro st₀ st₁ h; exact ih _ _ (hf st₀ st₁ a h)

theorem load_step_scoped_congr (load_session : LoadFn) (st₀ st₁ : RetrievalState)
    (result : SearchResult) (h : st₀.all_sessions = st₁.all_sessions) :
    (load_step_scoped load_session st₀ result).all_sessions =
      (load_step_scoped load_session st₁ result).all_sessions := by
  rw [load_step_scoped_all_sessions, load_step_scoped_all_sessions, h]

theorem load_step_unscoped_congr (load_session : LoadFn) (st₀ st₁ : RetrievalState)
    (result : SearchResult) (h : st₀.all_sessions = st₁.all_sessions) :
    (load_step_unscoped load_session st₀ result).all_sessions =
      (load_step_unscoped load_session st₁ result).all_sessions := by
  rw [load_step_unscoped_all_sessions, load_step_unscoped_all_sessions, h]

theorem search_project_step_congr (search : SearchFn) (load_session : LoadFn)
    (query project : String) (st₀ st₁ : RetrievalState)
    (h : st₀.all_sessions = st₁.all_sessions) :
    (search_project_step search load_session query project st₀).all_sessions =
      (search_project_step search load_session query project st₁).all_sessions := by
  unfold search_project_step
  cases hres : search query (some ("*" ++ project ++ "*")) 20 with
  | ok results =>
      simp only
      exact foldl_all_sessions_congr _ (load_step_scoped_congr load_session) results _ _
        (by simpa [log_entry] using h)
  | error e => simpa [log_entry] using h

theorem search_query_step_congr (search : SearchFn) (load_session : LoadFn)
    (projects : Option (List String)) (query : String) (st₀ st₁ : RetrievalState)
    (h : st₀.all_sessions = st₁.all_sessions) :
    (search_query_step search load_session projects query st₀).all_sessions =
      (search_query_step search load_session projects query st₁).all_sessions := by
  unfold search_query_step
  by_cases hps : (projects.getD []).isEmpty
  · rw [if_pos hps, if_pos hps]
    cases hres : search query none 30 with
    | ok results =>
        simp only
        exact foldl_all_sessions_congr _ (load_step_unscoped_congr load_session) _ _ _
          (by simpa [log_entry] using h)
    | error e => simpa [log_entry] using h
  · rw [if_neg hps, if_neg hps]
    exact foldl_all_sessions_congr _
      (fun st₀ st₁ p hp => search_project_step_congr search load_session query p st₀ st₁ hp)
      _ _ _ (by simpa [log_entry] using h)

/-- The deduplicated session list retrieval returns does not depend on the
ambient state the retrieval started from. -/
theorem search_sessions_fst_independent (search : SearchFn) (load_session : LoadFn)
    (queries : List String) (projects : Option (List String))
    (st₀ st₁ : RetrievalState) :
    (search_sessions search load_session queries projects st₀).1 =
      (search_sessions search load_session queries projects st₁).1 := by
  unfold search_sessions
  simp only
  congr 1
  exact foldl_all_sessions_congr _
    (fun s₀ s₁ q hq => search_query_step_congr search load_session projects q s₀ s₁ hq)
    queries _ _ rfl

/-- A state transformer only appends stage-"searching" entries to the log. -/
def log_extends_searching (f : RetrievalState → RetrievalState) : Prop :=
  ∀ st : RetrievalState, ∃ ext, (f st).log = st.log ++ ext ∧
    ∀ e ∈ ext, e.stage = "searching"

theorem log_extends_searching_comp {f g : RetrievalState → RetrievalState}
    (hf : log_extends_searching f) (hg : log_extends_searching g) :
    log_extends_searching (fun st => g (f st)) := by
  intro st
  obtain ⟨ext₁, he₁, hs₁⟩ := hf st
  obtain ⟨ext₂, he₂, hs₂⟩ := hg (f st)
  refine ⟨ext₁ ++ ext₂, ?_, ?_⟩
  · rw [he₂, he₁, List.append_assoc]
  · intro e he
    rcases List.mem_append.1 he with h | h
    · exact hs₁ e h
    · exact hs₂ e h

theorem log_extends_searching_foldl {α : Type} (f : RetrievalState → α → RetrievalState)
    (hf : ∀ a, log_extends_searching (fun st => f st a)) :
    ∀ l : List α, log_extends_searching (fun st => l.foldl f st) := by
  intro l
  induction l with
  | nil => exact fun st => ⟨[], by simp, by simp⟩
  | cons a rest ih =>
      exact log_extends_searching_comp (hf a) ih

theorem log_extends_searching_log_entry (detail : String) :
    log_extends_searching (fun st => log_entry st "searching" detail) := by
  intro st
  exact ⟨[{ stage := "searching", detail := detail }], rfl, by simp⟩

/-- A log entry with stage "searching". -/
def searching_entry (detail : String) : LogEntry :=
  { stage := "searching", detail := detail }

theorem log_extends_searching_comp2 (f g : RetrievalState → RetrievalState)
    (hf : log_extends_searching f) (hg : log_extends_searching g) :
    log_extends_searching (fun st => g (f st)) :=
  log_extends_searching_comp hf hg

theorem log_extends_searching_load_scoped (load_session : LoadFn) (result : SearchResult) :
    log_extends_searching (fun st => load_step_scoped load_session st result) := by
  intro st
  unfold load_step_scoped
  by_cases h : contains_key st.all_sessions result.session_id
  · exact ⟨[], by simp [h], by simp⟩
  · cases hl : load_session result.session_id with
    | none => exact ⟨[], by simp [h, hl], by simp⟩
    | some session =>
        refine ⟨[searching_entry ("    Found: " ++ py_take8 session.session_id ++ " ("
          ++ toString session.messages.length ++ " msgs)")], ?_, by simp [searching_entry]⟩
        simp [h, hl, log_entry, searching_entry]

theorem log_extends_searching_load_unscoped (load_session : LoadFn) (result : SearchResult) :
    log_extends_searching (fun st => load_step_unscoped load_session st result) := by
  intro st
  unfold load_step_unscoped
  by_cases h : contains_key st.all_sessions result.session_id
  · exact ⟨[], by simp [h], by simp⟩
  · cases hl : load_session result.session_id with
    | none => exact ⟨[], by simp [h, hl], by simp⟩
    | some session =>
        refine ⟨[searching_entry ("  Found: " ++ py_take8 session.session_id ++ " in "
          ++ session.project)], ?_, by simp [searching_entry]⟩
        simp [h, hl, log_entry, searching_entry]

theorem log_extends_searching_project_step (search : SearchFn) (load_session : LoadFn)
    (query project : String) :
    log_extends_searching
      (fun st => search_project_step search load_session query project st) := by
  have hbody : log_extends_searching (fun st =>
      match search query (some ("*" ++ project ++ "*")) 20 with
      | .ok results =>
          results.foldl (load_step_scoped load_session)
            { st with search_results := st.search_results ++ results }
      | .error e => log_entry st "searching" ("    Search error: " ++ e)) := by
    intro st
    cases hres : search query (some ("*" ++ project ++ "*")) 20 with
    | ok results =>
        obtain ⟨ext, he, hs⟩ :=
          log_extends_searching_foldl _ (log_extends_searching_load_scoped load_session)
            results { st with search_results := st.search_results ++ results }
        exact ⟨ext, by simpa [hres] using he, hs⟩
    | error e =>
        exact ⟨[searching_entry ("    Search error: " ++ e)],
          by simp [hres, log_entry, searching_entry], by simp [searching_entry]⟩
  exact log_extends_searching_comp2
    (fun st => log_entry st "searching" ("  In project: " ++ project))
    (fun st =>
      match search query (some ("*" ++ project ++ "*")) 20 with
      | .ok results =>
          results.foldl (load_step_scoped load_session)
            { st with search_results := st.search_results ++ results }
      | .error e => log_entry st "searching" ("    Search error: " ++ e))
    (log_extends_searching_log_entry ("  In project: " ++ project)) hbody

theorem log_extends_searching_query_step (search : SearchFn) (load_session : LoadFn)
    (projects : Option (List String)) (query : String) :
    log_extends_searching
      (fun st => search_query_step search load_session projects query st) := by
  have hbody : log_extends_searching (fun st =>
      if (projects.getD []).isEmpty then
        match search query none 30 with
        | .ok results =>
            (results.take 10).foldl (load_step_unscoped load_session)
              { st with search_results := st.search_results ++ results }
        | .error e => log_entry st "searching" ("Search error: " ++ e)
      else
        (projects.getD []).foldl
          (fun st project => search_project_step search load_session query project st) st) := by
    intro st
    by_cases hps : (projects.getD []).isEmpty
    · cases hres : search query none 30 with
      | ok results =>
          obtain ⟨ext, he, hs⟩ :=
            log_extends_searching_foldl _ (log_extends_searching_load_unscoped load_session)
              (results.take 10) { st with search_results := st.search_results ++ results }
          exact ⟨ext, by simpa [hps, hres] using he, hs⟩
      | error e =>
          exact ⟨[searching_entry ("Search error: " ++ e)],
            by simp [hps, hres, log_entry, searching_entry], by simp [searching_entry]⟩
    · obtain ⟨ext, he, hs⟩ :=
        log_extends_searching_foldl _
          (fun p => log_extends_searching_project_step search load_session query p)
          (projects.getD []) st
      exact ⟨ext, by simpa [hps] using he, hs⟩
  exact log_extends_searching_comp2
    (fun st => log_entry st "searching" ("Searching for: '" ++ query ++ "'"))
    (fun st =>
      if (projects.getD []).isEmpty then
        match search query none 30 with
        | .ok results =>
            (results.take 10).foldl (load_step_unscoped load_session)
              { st with search_results := st.search_results ++ results }
        | .error e => log_entry st "searching" ("Search error: " ++ e)
      else
        (projects.getD []).foldl
          (fun st project => search_project_step search load_session query project st) st)
    (log_extends_searching_log_entry ("Searching for: '" ++ query ++ "'")) hbody

/-- Retrieval only ever appends stage-"searching" entries to the log it was
started with. -/
theorem search_sessions_log_extends (search : SearchFn) (load_session : LoadFn)
    (queries : List String) (projects : Option (List String)) (st0 : RetrievalState) :
    ∃ ext, (search_sessions search load_session queries projects st0).2.log
        = st0.log ++ ext ∧ ∀ e ∈ ext, e.stage = "searching" := by
  obtain ⟨ext, he, hs⟩ :=
    log_extends_searching_foldl _
      (fun q => log_extends_searching_query_step search load_session projects q)
      queries { st0 with all_sessions := [] }
  refine ⟨ext ++ [searching_entry ("Total unique sessions found: " ++ toString
      ((queries.foldl (fun st query => search_query_step search load_session projects query st)
          { st0 with all_sessions := [] }).all_sessions.map Prod.snd).length)], ?_, ?_⟩
  · simp only [search_sessions, log_entry, searching_entry]
    rw [he, List.append_assoc]
  · intro e he'
    rcases List.mem_append.1 he' with h | h
    · exact hs e h
    · simp only [List.mem_singleton] at h
      rw [h]
      rfl

/-! ### The RAG orchestrator (`agents.RAGAnalyzer.analyze`)

The three LLM-backed agents are external collaborators here: the query
decomposer (whose own parsing logic is verified above as `decompose`), the
analysis agent and the comparison agent.  An unrecovered LLM failure inside
any of them is a raised exception, modelled as `.error`; `rag_analyze`
propagates it, so the model's result type is `Except`.  A trace of
chunker/agent invocations is returned alongside, to state non-invocation
claims. -/

/-- The `agents.DecomposedQuery` dataclass with its declared field types (the
orchestrator consumes a well-typed instance: it iterates `search_queries`,
reads `analysis_prompt` and branches on `comparison_needed`). -/
structure DecomposedQuery where
  original_query : String
  search_queries : List String
  analysis_prompt : String
  comparison_needed : Bool
deriving DecidableEq, Repr

/-- The decomposition collaborator `QueryDecomposer.decompose` as invoked by
the orchestrator (LLM call included). -/
def DecomposeFn : Type := String → Option (List String) → Except String DecomposedQuery

/-- The analysis collaborator `AnalysisAgent.analyze(chunks, prompt)`. -/
def AnalyzeFn : Type := List SessionChunk → String → Except String String

/-- The comparison collaborator `ComparisonAgent.compare(analyses, prompt)`,
its analyses dict modelled as an insertion-ordered association list. -/
def CompareFn : Type := List (String × String) → String → Except String String

/-- One recorded invocation of the chunker or of an LLM-backed agent. -/
inductive AgentCall where
  | chunk_call (sessions : Nat)
  | analysis_call
  | comparison_call
deriving DecidableEq, Repr

/-- Grouping of chunks by session id (the orchestrator's `session_chunks`
dict), keyed in first-occurrence order. -/
def group_by_session (chunks : List SessionChunk) : List (String × List SessionChunk) :=
  chunks.foldl (fun acc c =>
    if acc.any (fun p => p.1 == c.session_id) then
      acc.map (fun p => if p.1 == c.session_id then (p.1, p.2 ++ [c]) else p)
    else acc ++ [(c.session_id, [c])]) []

/-- The per-session analysis loop of the comparison branch: log, invoke the
analysis agent on the session's chunks, accumulate its analysis into the
`context.analyses` dict; an agent failure aborts the run. -/
def analyze_groups (analyze_agent : AnalyzeFn) (analysis_prompt : String) :
    List (String × List SessionChunk) → RetrievalState → List AgentCall →
      List (String × String) →
      Except String (RetrievalState × List AgentCall × List (String × String))
  | [], st, calls, analyses => .ok (st, calls, analyses)
  | (session_id, chunks) :: rest, st, calls, analyses =>
      let st := log_entry st "analyzing" ("Analyzing session " ++ py_take8 session_id ++ "...")
      match analyze_agent chunks analysis_prompt with
      | .error e => .error e
      | .ok analysis =>
          analyze_groups analyze_agent analysis_prompt rest st
            (calls ++ [AgentCall.analysis_call]) (analyses ++ [(session_id, analysis)])

/-- What `RAGAnalyzer.analyze` returns — final answer, ids of the sessions
used, the execution log — plus the invocation trace instrumentation. -/
structure RagOutcome where
  final_result : String
  session_ids : List String
  log : List LogEntry
  agent_calls : List AgentCall
deriving DecidableEq, Repr

/-- The "starting" stage: state reset, then the question and (if truthy) the
project filters are logged. -/
def rag_start_state (query : String) (projects : Option (List String)) : RetrievalState :=
  let st : RetrievalState := {}
  let st := log_entry st "starting" ("Analyzing: " ++ query)
  if (projects.getD []).isEmpty then st
  else log_entry st "starting" ("Projects: " ++ String.intercalate ", " (projects.getD []))

/-- The logging that follows a successful decomposition: the query count and
each produced search query, then the "searching" banner. -/
def rag_decomposed_state (st : RetrievalState) (decomposed : DecomposedQuery) :
    RetrievalState :=
  let st := log_entry st "decomposing"
    ("Generated " ++ toString decomposed.search_queries.length ++ " search queries")
  let st := decomposed.search_queries.foldl
    (fun st sq => log_entry st "decomposing" ("  - " ++ sq)) st
  log_entry st "searching" "Searching conversation history..."

/-- The retrieval-state the orchestrator has built when it invokes
retrieval: starting stage, decomposing banner, decomposition logging. -/
def rag_pre_state (query : String) (projects : Option (List String))
    (decomposed : DecomposedQuery) : RetrievalState :=
  rag_decomposed_state
    (log_entry (rag_start_state query projects) "decomposing" "Breaking down your question...")
    decomposed

/-- Chunking, analysis and (if needed) comparison over a non-empty retrieved
session set: steps 3 and 4 of `RAGAnalyzer.analyze`. -/
def rag_analyze_nonempty (analyze_agent : AnalyzeFn) (compare_agent : CompareFn)
    (decomposed : DecomposedQuery) (sessions : List Session) (st : RetrievalState) :
    Except String RagOutcome :=
  let st := log_entry st "chunking"
    ("Preparing " ++ toString sessions.length ++ " sessions for analysis...")
  let session_chunks := chunk_multiple_sessions sessions MAX_TOKENS_PER_CHUNK
  let calls : List AgentCall := [AgentCall.chunk_call sessions.length]
  let st := log_entry st "chunking"
    ("Created " ++ toString session_chunks.length ++ " chunks")
  if decomposed.comparison_needed ∧ sessions.length > 1 then
    let st := log_entry st "analyzing" "Analyzing sessions separately for comparison..."
    match analyze_groups analyze_agent decomposed.analysis_prompt
        (group_by_session session_chunks) st calls [] with
    | .error e => .error e
    | .ok (st, calls, analyses) =>
        let st := log_entry st "comparing" "Comparing analyses across sessions..."
        match compare_agent analyses decomposed.analysis_prompt with
        | .error e => .error e
        | .ok final_result =>
            let calls := calls ++ [AgentCall.comparison_call]
            let st := log_entry st "complete" "Analysis complete!"
            .ok { final_result := final_result
                  session_ids := sessions.map Session.session_id
                  log := st.log
                  agent_calls := calls }
  else
    let st := log_entry st "analyzing" "Analyzing all sessions together..."
    match analyze_agent session_chunks decomposed.analysis_prompt with
    | .error e => .error e
    | .ok final_result =>
        let calls := calls ++ [AgentCall.analysis_call]
        let st := log_entry st "complete" "Analysis complete!"
        .ok { final_result := final_result
              session_ids := sessions.map Session.session_id
              log := st.log
              agent_calls := calls }

/-- The remainder of `RAGAnalyzer.analyze` once decomposition succeeded:
retrieval, then either the empty-retrieval return or chunking/analysis. -/
def rag_analyze_ok (search : SearchFn) (load_session : LoadFn)
    (analyze_agent : AnalyzeFn) (compare_agent : CompareFn)
    (query : String) (projects : Option (List String)) (decomposed : DecomposedQuery) :
    Except String RagOutcome :=
  let res := search_sessions search load_session decomposed.search_queries projects
    (rag_pre_state query projects decomposed)
  if res.1.isEmpty then
    let st := log_entry res.2 "complete" "No relevant sessions found."
    .ok { final_result := "No relevant conversations found for your query."
          session_ids := []
          log := st.log
          agent_calls := [] }
  else
    rag_analyze_nonempty analyze_agent compare_agent decomposed res.1 res.2

/-- The full `RAGAnalyzer.analyze(query, projects)` workflow over the
collaborator functions. -/
def rag_analyze (decompose_agent : DecomposeFn) (search : SearchFn)
    (load_session : LoadFn) (analyze_agent : AnalyzeFn) (compare_agent : CompareFn)
    (query : String) (projects : Option (List String)) : Except String RagOutcome :=
  match decompose_agent query projects with
  | .error e => .error e
  | .ok decomposed =>
      rag_analyze_ok search load_session analyze_agent compare_agent query projects decomposed

theorem foldl_log_stage_mem {α : Type} (stage : String) (f : α → String) (l : List α) :
    ∀ (st : RetrievalState) (e : LogEntry),
      e ∈ (l.foldl (fun st x => log_entry st stage (f x)) st).log →
      e ∈ st.log ∨ e.stage = stage := by
  induction l with
  | nil => exact fun st e he => Or.inl he
  | cons a rest ih =>
      intro st e he
      rcases ih (log_entry st stage (f a)) e he with h | h
      · have h' : e ∈ st.log ++ [({ stage := stage, detail := f a } : LogEntry)] := h
        rcases List.mem_append.1 h' with h'' | h''
        · exact Or.inl h''
        · right
          rw [List.mem_singleton.1 h'']
      · exact Or.inr h

theorem rag_start_log_stages (query : String) (projects : Option (List String)) :
    ∀ e ∈ (rag_start_state query projects).log, e.stage = "starting" := by
  intro e he
  by_cases hps : (projects.getD []).isEmpty
  · have he' : e ∈ (if (projects.getD []).isEmpty then
        log_entry {} "starting" ("Analyzing: " ++ query)
      else
        log_entry (log_entry {} "starting" ("Analyzing: " ++ query)) "starting"
          ("Projects: " ++ String.intercalate ", " (projects.getD []))).log := he
    rw [if_pos hps] at he'
    have h1 : e ∈ [LogEntry.mk "starting" ("Analyzing: " ++ query)] := he'
    rw [List.mem_singleton.1 h1]
  · have he' : e ∈ (if (projects.getD []).isEmpty then
        log_entry {} "starting" ("Analyzing: " ++ query)
      else
        log_entry (log_entry {} "starting" ("Analyzing: " ++ query)) "starting"
          ("Projects: " ++ String.intercalate ", " (projects.getD []))).log := he
    rw [if_neg hps] at he'
    have h1 : e ∈ [LogEntry.mk "starting" ("Analyzing: " ++ query)]
        ++ [LogEntry.mk "starting"
            ("Projects: " ++ String.intercalate ", " (projects.getD []))] := he'
    rcases List.mem_append.1 h1 with h2 | h2 <;> rw [List.mem_singleton.1 h2]

/-- Every log entry present when the orchestrator hands control to retrieval
has stage "starting", "decomposing" or "searching". -/
theorem rag_pre_log_stages (query : String) (projects : Option (List String))
    (dq : DecomposedQuery) :
    ∀ e ∈ (rag_decomposed_state (log_entry (rag_start_state query projects)
        "decomposing" "Breaking down your question...") dq).log,
      e.stage = "starting" ∨ e.stage = "decomposing" ∨ e.stage = "searching" := by
  intro e he
  have he' : e ∈ (dq.search_queries.foldl
      (fun st sq => log_entry st "decomposing" ("  - " ++ sq))
      (log_entry (log_entry (rag_start_state query projects) "decomposing"
          "Breaking down your question...")
        "decomposing"
        ("Generated " ++ toString dq.search_queries.length ++ " search queries"))).log
      ++ [LogEntry.mk "searching" "Searching conversation history..."] := he
  rcases List.mem_append.1 he' with h | h
  · rcases foldl_log_stage_mem "decomposing" (fun sq => "  - " ++ sq) dq.search_queries _ e h
      with h' | h'
    · have h'' : e ∈ ((rag_start_state query projects).log
          ++ [LogEntry.mk "decomposing" "Breaking down your question..."])
          ++ [LogEntry.mk "decomposing"
              ("Generated " ++ toString dq.search_queries.length ++ " search queries")] := h'
      rcases List.mem_append.1 h'' with h₃ | h₃
      · rcases List.mem_append.1 h₃ with h₄ | h₄
        · exact Or.inl (rag_start_log_stages query projects e h₄)
        · exact Or.inr (Or.inl (by rw [List.mem_singleton.1 h₄]))
      · exact Or.inr (Or.inl (by rw [List.mem_singleton.1 h₃]))
    · exact Or.inr (Or.inl h')
  · exact Or.inr (Or.inr (by rw [List.mem_singleton.1 h]))

/-- C7.  When retrieval yields zero sessions, the orchestrator returns the
fixed "no relevant conversations" answer with an empty session-id list as a
normal (`.ok`) result, the run's log transitions directly to the complete
stage, and neither the chunker nor the analysis or comparison agents are
invoked: the invocation trace is empty and no "chunking"/"analyzing"/
"comparing" stage is ever logged. -/
theorem rag_analyze_empty_retrieval
    (decompose_agent : DecomposeFn) (search : SearchFn) (load_session : LoadFn)
    (analyze_agent : AnalyzeFn) (compare_agent : CompareFn)
    (query : String) (projects : Option (List String)) (dq : DecomposedQuery)
    (hdec : decompose_agent query projects = .ok dq)
    (hempty : (search_sessions search load_session dq.search_queries projects {}).1 = []) :
    ∃ log, rag_analyze decompose_agent search load_session analyze_agent compare_agent
          query projects =
        .ok { final_result := "No relevant conversations found for your query."
              session_ids := []
              log := log
              agent_calls := [] } ∧
      log.getLast? = some (LogEntry.mk "complete" "No relevant sessions found.") ∧
      ∀ e ∈ log, e.stage ≠ "chunking" ∧ e.stage ≠ "analyzing" ∧ e.stage ≠ "comparing" := by
  have hempty' : (search_sessions search load_session dq.search_queries projects
      (rag_pre_state query projects dq)).1 = [] :=
    (search_sessions_fst_independent search load_session dq.search_queries projects _ _).trans
      hempty
  have hbool : (search_sessions search load_session dq.search_queries projects
      (rag_pre_state query projects dq)).1.isEmpty = true := by
    rw [hempty']
    rfl
  refine ⟨(search_sessions search load_session dq.search_queries projects
      (rag_pre_state query projects dq)).2.log
    ++ [LogEntry.mk "complete" "No relevant sessions found."], ?_, ?_, ?_⟩
  · unfold rag_analyze
    rw [hdec]
    show rag_analyze_ok search load_session analyze_agent compare_agent query projects dq = _
    show (if (search_sessions search load_session dq.search_queries projects
          (rag_pre_state query projects dq)).1.isEmpty then
        Except.ok { final_result := "No relevant conversations found for your query."
                    session_ids := []
                    log := (log_entry (search_sessions search load_session dq.search_queries
                        projects (rag_pre_state query projects dq)).2
                      "complete" "No relevant sessions found.").log
                    agent_calls := ([] : List AgentCall) }
      else
        rag_analyze_nonempty analyze_agent compare_agent dq
          (search_sessions search load_session dq.search_queries projects
            (rag_pre_state query projects dq)).1
          (search_sessions search load_session dq.search_queries projects
            (rag_pre_state query projects dq)).2) = _
    rw [hbool]
    rfl
  · exact List.getLast?_concat _
  · intro e he
    rcases List.mem_append.1 he with h | h
    · obtain ⟨ext, hlog, hs⟩ := search_sessions_log_extends search load_session
        dq.search_queries projects (rag_pre_state query projects dq)
      rw [hlog] at h
      rcases List.mem_append.1 h with h' | h'
      · rcases rag_pre_log_stages query projects dq e h' with hst | hst | hst <;>
          (rw [hst]; exact ⟨by decide, by decide, by decide⟩)
      · rw [hs e h']
        exact ⟨by decide, by decide, by decide⟩
    · simp only [List.mem_singleton] at h
      rw [h]
      exact ⟨by decide, by decide, by decide⟩

/-- Decomposition stub: one search query, the question itself. -/
def decompose_stub : DecomposeFn := fun query _ =>
  .ok { original_query := query, search_queries := [query],
        analysis_prompt := query, comparison_needed := false }

/-- Analysis-agent stub. -/
def analyze_stub : AnalyzeFn := fun _ _ => .ok "analysis"

/-- Comparison-agent stub. -/
def compare_stub : CompareFn := fun _ _ => .ok "comparison"

/-- Witness for C7: a run whose search finds nothing ends in the fixed
no-results outcome without any agent invocation. -/
theorem rag_analyze_empty_retrieval_witness :
    ∃ log, rag_analyze decompose_stub search_no_hit load_fails analyze_stub compare_stub
          "q" none =
        .ok { final_result := "No relevant conversations found for your query."
              session_ids := []
              log := log
              agent_calls := [] } ∧
      log.getLast? = some (LogEntry.mk "complete" "No relevant sessions found.") ∧
      ∀ e ∈ log, e.stage ≠ "chunking" ∧ e.stage ≠ "analyzing" ∧ e.stage ≠ "comparing" :=
  rag_analyze_empty_retrieval decompose_stub search_no_hit load_fails analyze_stub
    compare_stub "q" none
    { original_query := "q", search_queries := ["q"],
      analysis_prompt := "q", comparison_needed := false }
    rfl (by decide)
